import Mathlib

/-!
Verification of the Avature scraping actor's core logic: date and salary
normalizers, the title-extraction cascade, the listing and detail page
handlers, and the two-tier error classifier, shallowly embedded from the
TypeScript sources (`src/routes/extractors.ts`, `src/routes/listing.handler.ts`,
`src/routes/job-detail.handler.ts`, `src/main.ts`).

Strings are modelled as lists of characters (`Str`); each JavaScript regular
expression used by the code is embedded as an explicit executable matcher with
the same leftmost-match semantics.
-/

namespace Avature

/-- Character-list strings, the working representation of JS strings. -/
abbrev Str := List Char

/-- Convert a Lean string literal to the working representation. -/
def strL (s : String) : Str := s.data

/-- `p` is a leading segment of `s` (JS `String.prototype.startsWith`). -/
def hasPre : Str → Str → Bool
  | [], _ => true
  | _ :: _, [] => false
  | a :: ps, b :: ss => a == b && hasPre ps ss

/-- `p` is a trailing segment of `s`. -/
def hasSuf (p s : Str) : Bool := hasPre p.reverse s.reverse

/-- `nee` occurs somewhere inside `hay` (JS `String.prototype.includes`). -/
def containsS (hay nee : Str) : Bool := hay.tails.any (fun t => hasPre nee t)

/-- JS `String.prototype.trim`: strip leading and trailing whitespace. -/
def trimS (s : Str) : Str :=
  ((s.dropWhile Char.isWhitespace).reverse.dropWhile Char.isWhitespace).reverse

/-- JS `String.prototype.toLowerCase` (ASCII). -/
def lowerS (s : Str) : Str := s.map Char.toLower

/-- JS falsy-or (`a || b`): an empty or absent string falls through. -/
def orFalsy (a b : Option Str) : Option Str :=
  match a with
  | some s => if s.isEmpty then b else some s
  | none => b

/-- JS nullish-or (`a ?? b`): only a null/undefined value falls through. -/
def orNull (a b : Option Str) : Option Str :=
  match a with
  | some s => some s
  | none => b

/-! ## Regex scaffolding

JS regexes search left to right: the match at the earliest starting position
wins.  `scanFind f s` applies the position matcher `f` to every suffix of `s`
in order and returns the first hit, which is exactly that semantics. -/

/-- Leftmost-match search: try the position matcher on each suffix in order. -/
def scanFind {α : Type} (f : Str → Option α) : Str → Option α
  | [] => f []
  | c :: rest =>
    match f (c :: rest) with
    | some x => some x
    | none => scanFind f rest

/-- `\d{1,2}` with its backtracking alternatives: the greedy two-digit take
first, then the one-digit take, each paired with the remaining input. -/
def grab12 (cs : Str) : List (Str × Str) :=
  match cs with
  | a :: b :: rest =>
    if a.isDigit && b.isDigit then [([a, b], rest), ([a], b :: rest)]
    else if a.isDigit then [([a], b :: rest)]
    else []
  | [a] => if a.isDigit then [([a], [])] else []
  | [] => []

/-- `\d{4}`: exactly four digits. -/
def grab4 (cs : Str) : Option (Str × Str) :=
  match cs with
  | a :: b :: c :: d :: rest =>
    if [a, b, c, d].all Char.isDigit then some ([a, b, c, d], rest) else none
  | _ => none

/-- `[A-Za-z]{3}`: exactly three letters. -/
def grab3alpha (cs : Str) : Option (Str × Str) :=
  match cs with
  | a :: b :: c :: rest =>
    if [a, b, c].all Char.isAlpha then some ([a, b, c], rest) else none
  | _ => none

/-! ## Date normalizer (`parseDate`, extractors.ts lines 258-297) -/

/-- The anchored ISO test `/^\d{4}-\d{2}-\d{2}/`. -/
def isIso (s : Str) : Bool :=
  match s with
  | a :: b :: c :: d :: '-' :: e :: f :: '-' :: g :: h :: _ =>
    [a, b, c, d, e, f, g, h].all Char.isDigit
  | _ => false

/-- Position matcher for `/(\d{1,2})\/(\d{1,2})\/(\d{4})/`. -/
def mdyAt (cs : Str) : Option (Str × Str × Str) :=
  (grab12 cs).findSome? fun mr =>
    match mr.2 with
    | '/' :: r1 =>
      (grab12 r1).findSome? fun dr =>
        match dr.2 with
        | '/' :: r2 =>
          match grab4 r2 with
          | some yr => some (mr.1, dr.1, yr.1)
          | none => none
        | _ => none
    | _ => none

/-- Position matcher for `/(\d{1,2})-([A-Za-z]{3})-(\d{4})/`. -/
def dmyAt (cs : Str) : Option (Str × Str × Str) :=
  (grab12 cs).findSome? fun dr =>
    match dr.2 with
    | '-' :: r1 =>
      match grab3alpha r1 with
      | some mr =>
        match mr.2 with
        | '-' :: r2 =>
          match grab4 r2 with
          | some yr => some (dr.1, mr.1, yr.1)
          | none => none
        | _ => none
      | none => none
    | _ => none

/-- Position matcher for `/([A-Za-z]+)\s+(\d{1,2}),?\s+(\d{4})/`. -/
def fullAt (cs : Str) : Option (Str × Str × Str) :=
  let letters := cs.takeWhile Char.isAlpha
  if letters.isEmpty then none
  else
    let r1 := cs.drop letters.length
    let ws1 := r1.takeWhile Char.isWhitespace
    if ws1.isEmpty then none
    else
      (grab12 (r1.drop ws1.length)).findSome? fun dr =>
        let r3 := match dr.2 with | ',' :: t => t | t => t
        let ws2 := r3.takeWhile Char.isWhitespace
        if ws2.isEmpty then none
        else
          match grab4 (r3.drop ws2.length) with
          | some yr => some (letters, dr.1, yr.1)
          | none => none

/-- Three-letter month abbreviation table from `parseDate`. -/
def months3 : List (Str × Str) :=
  [(strL "jan", strL "01"), (strL "feb", strL "02"), (strL "mar", strL "03"),
   (strL "apr", strL "04"), (strL "may", strL "05"), (strL "jun", strL "06"),
   (strL "jul", strL "07"), (strL "aug", strL "08"), (strL "sep", strL "09"),
   (strL "oct", strL "10"), (strL "nov", strL "11"), (strL "dec", strL "12")]

/-- Full month name table from `parseDate`. -/
def monthsFull : List (Str × Str) :=
  [(strL "january", strL "01"), (strL "february", strL "02"), (strL "march", strL "03"),
   (strL "april", strL "04"), (strL "may", strL "05"), (strL "june", strL "06"),
   (strL "july", strL "07"), (strL "august", strL "08"), (strL "september", strL "09"),
   (strL "october", strL "10"), (strL "november", strL "11"), (strL "december", strL "12")]

/-- JS `padStart(2, '0')`. -/
def pad2 (s : Str) : Str :=
  if s.length < 2 then List.replicate (2 - s.length) '0' ++ s else s

/-- Assemble the `Y-M-D` output string. -/
def renderYMD (y m d : Str) : Str := y ++ '-' :: (m ++ '-' :: d)

/-- The trailing full-month branch of `parseDate`, reached when neither the
numeric nor the abbreviated pattern produced a result. -/
def parseDateFull (s : Str) : Str :=
  match scanFind fullAt s with
  | some (mon, d, y) =>
    match monthsFull.lookup (lowerS mon) with
    | some mm => renderYMD y mm (pad2 d)
    | none => s
  | none => s

/-- `parseDate` on a non-null string (extractors.ts lines 258-297). -/
def parseDate (s : Str) : Str :=
  if isIso s then s
  else
    match scanFind mdyAt s with
    | some (m, d, y) => renderYMD y (pad2 m) (pad2 d)
    | none =>
      match scanFind dmyAt s with
      | some (d, mon, y) =>
        match months3.lookup (lowerS mon) with
        | some mm => renderYMD y mm (pad2 d)
        | none => parseDateFull s
      | none => parseDateFull s

/-- `parseDate` including the null short-circuit. -/
def parseDateO : Option Str → Option Str
  | none => none
  | some s => some (parseDate s)

/-! ## Salary normalizer (`parseSalary`, extractors.ts lines 302-329) -/

/-- The `[\d,]+` character class. -/
def isNumC (c : Char) : Bool := c.isDigit || c == ','

/-- The `[-–to]+` separator class under the `i` flag. -/
def isSepC (c : Char) : Bool :=
  c == '-' || c == '–' || c == 't' || c == 'o' || c == 'T' || c == 'O'

/-- One number token `\$?([\d,]+(?:\.\d+)?)` of the salary patterns, returning
the captured group and the remaining input. -/
def salNumAt (cs : Str) : Option (Str × Str) :=
  let cs1 := match cs with | '$' :: t => t | t => t
  let ds := cs1.takeWhile isNumC
  if ds.isEmpty then none
  else
    let r := cs1.drop ds.length
    match r with
    | '.' :: t =>
      let fs := t.takeWhile Char.isDigit
      if fs.isEmpty then some (ds, r) else some (ds ++ '.' :: fs, t.drop fs.length)
    | _ => some (ds, r)

/-- Position matcher for the range pattern
`/\$?([\d,]+(?:\.\d+)?)\s*[-–to]+\s*\$?([\d,]+(?:\.\d+)?)/i`, returning the
two captured number groups. -/
def salRangeAt (cs : Str) : Option (Str × Str) :=
  match salNumAt cs with
  | none => none
  | some (n1, r1) =>
    let r2 := r1.dropWhile Char.isWhitespace
    let seps := r2.takeWhile isSepC
    if seps.isEmpty then none
    else
      let r3 := (r2.drop seps.length).dropWhile Char.isWhitespace
      match salNumAt r3 with
      | some (n2, _) => some (n1, n2)
      | none => none

/-- Leftmost match of the range pattern. -/
def salRangeFind (s : Str) : Option (Str × Str) := scanFind salRangeAt s

/-- Leftmost match of the single-value pattern `\$?([\d,]+(?:\.\d+)?)`. -/
def salSingleFind (s : Str) : Option Str :=
  scanFind (fun cs => (salNumAt cs).map (fun p => p.1)) s

/-- JS `replace(/,/g, '')`. -/
def stripCommas (s : Str) : Str := s.filter (fun c => !(c == ','))

/-- The period keyword detection chain of `parseSalary`. -/
def salPeriod (lower : Str) : Option Str :=
  if containsS lower (strL "hour") then some (strL "hourly")
  else if containsS lower (strL "year") || containsS lower (strL "annual") then
    some (strL "yearly")
  else if containsS lower (strL "month") then some (strL "monthly")
  else if containsS lower (strL "week") then some (strL "weekly")
  else none

/-- The structured result of `parseSalary`. -/
structure SalaryResult where
  min : Option Str
  max : Option Str
  raw : Option Str
  period : Option Str
deriving DecidableEq, Repr

/-- `parseSalary` (extractors.ts lines 302-329). -/
def parseSalary : Option Str → SalaryResult
  | none => { min := none, max := none, raw := none, period := none }
  | some s =>
    let period := salPeriod (lowerS s)
    match salRangeFind s with
    | some (a, b) =>
      { min := some (stripCommas a), max := some (stripCommas b),
        raw := some s, period := period }
    | none =>
      match salSingleFind s with
      | some a =>
        { min := some (stripCommas a), max := some (stripCommas a),
          raw := some s, period := period }
      | none => { min := none, max := none, raw := some s, period := period }

/-! Reading a captured number string as a decimal value, for stating the
min/max ordering property: `decParts` returns the digit string as a natural
number together with the number of fraction digits. -/

/-- Digits of a string as a natural number. -/
def natOfDigits (s : Str) : ℕ := s.foldl (fun n c => n * 10 + (c.toNat - 48)) 0

/-- Scaled decimal reading: significand and fraction length. -/
def decParts (s : Str) : ℕ × ℕ :=
  let ip := s.takeWhile Char.isDigit
  let rest := s.drop ip.length
  let fp := match rest with | '.' :: t => t.takeWhile Char.isDigit | _ => []
  (natOfDigits (ip ++ fp), fp.length)

/-- `a ≤ b` when both are read as decimal numbers. -/
abbrev decLe (a b : Str) : Prop :=
  (decParts a).1 * 10 ^ (decParts b).2 ≤ (decParts b).1 * 10 ^ (decParts a).2

/-! ## Error classifier (main.ts)

The content-tier signatures in `ERROR_PAGE_PATTERNS` are all of a single
shape: literal words separated by `\s*`, optionally an extra `( … )?` word
group, finished by an alternation of word sequences.  `Tok` captures the
word/`\s*` alphabet and `SigPat` the shape; `sigTest` implements the
unanchored case-insensitive `test` call. -/

/-- A token of a signature regex: a literal run or `\s*`. -/
inductive Tok where
  | lit : Str → Tok
  | ws : Tok

/-- All remainders after matching a token sequence at the current position
(`\s*` contributes one remainder per number of consumed whitespace chars). -/
def matchToks : List Tok → Str → List Str
  | [], cs => [cs]
  | Tok.lit p :: ts, cs => if hasPre p cs then matchToks ts (cs.drop p.length) else []
  | Tok.ws :: ts, cs =>
    (List.range (1 + (cs.takeWhile Char.isWhitespace).length)).flatMap
      (fun k => matchToks ts (cs.drop k))

/-- A signature pattern: mandatory part, optional group, final alternation
(`[[]]` encodes the absence of an alternation). -/
structure SigPat where
  pre : List Tok
  mid : Option (List Tok)
  alts : List (List Tok)

/-- Does the signature match starting exactly at this position? -/
def sigAt (p : SigPat) (cs : Str) : Bool :=
  (matchToks p.pre cs).any fun r1 =>
    let r2s := match p.mid with
      | none => [r1]
      | some m => matchToks m r1 ++ [r1]
    r2s.any fun r2 => p.alts.any fun br => !(matchToks br r2).isEmpty

/-- The unanchored `RegExp.test`: does the signature match anywhere? -/
def sigTest (p : SigPat) (cs : Str) : Bool := cs.tails.any (sigAt p)

/-- Literal words joined by `\s*`. -/
def wordsToks : List String → List Tok
  | [] => []
  | [w] => [Tok.lit (strL w)]
  | w :: rest => Tok.lit (strL w) :: Tok.ws :: wordsToks rest

/-- A plain signature: literal words joined by `\s*`. -/
def sigWords (wsList : List String) : SigPat :=
  { pre := wordsToks wsList, mid := none, alts := [[]] }

/-- The error taxonomy of main.ts (status and content tiers). -/
inductive ErrType where
  | PAGE_NOT_FOUND
  | ACCESS_DENIED
  | UNAUTHORIZED
  | AUTH_REQUIRED
  | SESSION_EXPIRED
  | SERVER_ERROR
  | SERVICE_UNAVAILABLE
  | MAINTENANCE
  | JOB_CLOSED
  | PROXY_RATE_LIMITED
  | RATE_LIMITED
  | HTTP_ERROR
deriving DecidableEq, Repr

/-- `ERROR_PAGE_PATTERNS` (main.ts), in declaration order. -/
def errorPagePatterns : List (SigPat × ErrType) :=
  [(sigWords ["page", "not", "found"], ErrType.PAGE_NOT_FOUND),
   (sigWords ["404", "error"], ErrType.PAGE_NOT_FOUND),
   (sigWords ["not", "found"], ErrType.PAGE_NOT_FOUND),
   (sigWords ["access", "denied"], ErrType.ACCESS_DENIED),
   (sigWords ["forbidden"], ErrType.ACCESS_DENIED),
   (sigWords ["403", "error"], ErrType.ACCESS_DENIED),
   (sigWords ["unauthorized"], ErrType.UNAUTHORIZED),
   (sigWords ["401", "error"], ErrType.UNAUTHORIZED),
   (sigWords ["login", "required"], ErrType.AUTH_REQUIRED),
   (sigWords ["sign", "in", "required"], ErrType.AUTH_REQUIRED),
   (sigWords ["authentication", "required"], ErrType.AUTH_REQUIRED),
   (sigWords ["session", "expired"], ErrType.SESSION_EXPIRED),
   (sigWords ["internal", "server", "error"], ErrType.SERVER_ERROR),
   (sigWords ["500", "error"], ErrType.SERVER_ERROR),
   (sigWords ["service", "unavailable"], ErrType.SERVICE_UNAVAILABLE),
   (sigWords ["503", "error"], ErrType.SERVICE_UNAVAILABLE),
   (sigWords ["temporarily", "unavailable"], ErrType.SERVICE_UNAVAILABLE),
   (sigWords ["maintenance"], ErrType.MAINTENANCE),
   (sigWords ["under", "construction"], ErrType.MAINTENANCE),
   ({ pre := [Tok.lit (strL "job"), Tok.ws],
      mid := some [Tok.lit (strL "has"), Tok.ws, Tok.lit (strL "been"), Tok.ws],
      alts := [[Tok.lit (strL "closed")], [Tok.lit (strL "filled")],
               [Tok.lit (strL "expired")], [Tok.lit (strL "removed")]] },
    ErrType.JOB_CLOSED),
   ({ pre := [Tok.lit (strL "position"), Tok.ws],
      mid := some [Tok.lit (strL "is"), Tok.ws],
      alts := [[Tok.lit (strL "no"), Tok.ws, Tok.lit (strL "longer"), Tok.ws,
                Tok.lit (strL "available")],
               [Tok.lit (strL "closed")], [Tok.lit (strL "filled")]] },
    ErrType.JOB_CLOSED),
   ({ pre := [Tok.lit (strL "this"), Tok.ws, Tok.lit (strL "posting"), Tok.ws],
      mid := some [Tok.lit (strL "has"), Tok.ws, Tok.lit (strL "been"), Tok.ws],
      alts := [[Tok.lit (strL "closed")], [Tok.lit (strL "removed")]] },
    ErrType.JOB_CLOSED),
   (sigWords ["multiple", "users", "connecting", "from", "your", "ip"],
    ErrType.PROXY_RATE_LIMITED),
   (sigWords ["rate", "limit"], ErrType.RATE_LIMITED),
   (sigWords ["too", "many", "requests"], ErrType.RATE_LIMITED)]

/-- `detectErrorInContent` (main.ts): lowercased page title plus the first
5000 characters of body text, scanned against the ordered signature table;
the first matching signature wins. -/
def detectErrorInContent (pageTitle bodyText : Str) : Option ErrType :=
  let fullText := lowerS (pageTitle ++ ' ' :: bodyText.take 5000)
  (errorPagePatterns.find? (fun pe => sigTest pe.1 fullText)).map (fun pe => pe.2)

/-! ## Title extraction (`isCompanyName` / `getJobTitle`, extractors.ts 18-108)

The parsed document is abstracted by what each query of `getJobTitle`
observes: the og:title attribute, the page `<title>` text, the Bloomberg
selector text, the per-selector first `h1` texts, and the list of all `h1`
elements with their classes. -/

/-- `/^ucla\s*health$/i` on an already lowercased string. -/
def uclaPat (t : Str) : Bool :=
  hasPre (strL "ucla") t && hasSuf (strL "health") t && decide (10 ≤ t.length)
    && ((t.drop 4).take (t.length - 10)).all Char.isWhitespace

/-- `isCompanyName` (extractors.ts 18-26): case-insensitive exact match of the
trimmed text against the company-name denylist. -/
def isCompanyName (text : Str) : Bool :=
  let t := lowerS (trimS text)
  t == strL "bloomberg" || uclaPat t || t == strL "unifi" || t == strL "avature"

/-- Lazy anchored capture `^(.+?)` followed by a tail predicate: the shortest
non-empty newline-free leading segment whose remainder satisfies the tail. -/
def lazyGo (t : Str → Bool) : Str → Str → Option Str
  | _, [] => none
  | acc, c :: rest =>
    if c == '\n' then none
    else
      let acc' := acc ++ [c]
      if t rest then some acc' else lazyGo t acc' rest

/-- Run the lazy capture from the start of the string. -/
def lazyCap (t : Str → Bool) (s : Str) : Option Str := lazyGo t [] s

/-- The `[-|]` separator class. -/
def isBarDash (c : Char) : Bool := c == '-' || c == '|'

/-- Tail of `/^(.+?)\s*[-|]\s*\d+\s*[-|]/`. -/
def titleTailA (cs : Str) : Bool :=
  match cs.dropWhile Char.isWhitespace with
  | c :: r2 =>
    isBarDash c &&
      (let r3 := r2.dropWhile Char.isWhitespace
       let ds := r3.takeWhile Char.isDigit
       !ds.isEmpty &&
         (match (r3.drop ds.length).dropWhile Char.isWhitespace with
          | c2 :: _ => isBarDash c2
          | [] => false))
  | [] => false

/-- Tail of `/^(.+?)\s*[-|]\s*[A-Z]/`. -/
def titleTailB (cs : Str) : Bool :=
  match cs.dropWhile Char.isWhitespace with
  | c :: r2 =>
    isBarDash c &&
      (match r2.dropWhile Char.isWhitespace with
       | c2 :: _ => 65 ≤ c2.toNat && c2.toNat ≤ 90
       | [] => false)
  | [] => false

/-- Method 1: the og:title meta tag. -/
def ogTitleM (ogMeta : Option Str) : Option Str :=
  match ogMeta with
  | some raw =>
    let t := trimS raw
    if !t.isEmpty && decide (5 < t.length) && decide (t.length < 200) then some t else none
  | none => none

/-- Method 2: page `<title>` split patterns. -/
def pageTitleM (titleText : Str) : Option Str :=
  let pt := trimS titleText
  if pt.isEmpty then none
  else
    let second :=
      match lazyCap titleTailB pt with
      | some cap =>
        if decide (5 < cap.length) && decide (cap.length < 150) then some (trimS cap) else none
      | none => none
    match lazyCap titleTailA pt with
    | some cap => if decide (5 < cap.length) then some (trimS cap) else second
    | none => second

/-- Method 3: the Bloomberg-specific field-value selector. -/
def bloombergM (bbText : Str) : Option Str :=
  let t := trimS bbText
  if !t.isEmpty && decide (5 < t.length) && decide (t.length < 200) then some t else none

/-- The shared candidate filter of methods 4 and 5. -/
def titleOk (t : Str) : Bool :=
  !t.isEmpty && !containsS (lowerS t) (strL "home page")
    && !containsS (lowerS t) (strL "careers")
    && decide (5 < t.length) && decide (t.length < 200) && !isCompanyName t

/-- Method 4: the ordered job-title selector table; a present candidate that
fails the filter is skipped and the next selector is tried. -/
def selectorsM : List (Option Str) → Option Str
  | [] => none
  | none :: rest => selectorsM rest
  | some raw :: rest =>
    let t := trimS raw
    if titleOk t then some t else selectorsM rest

/-- An `h1` element as observed by method 5. -/
structure H1El where
  classNames : List Str
  text : Str

/-- Method 5: first visible `h1` passing the filter. -/
def h1FallbackM : List H1El → Option Str
  | [] => none
  | h :: rest =>
    if h.classNames.contains (strL "visibility--hidden--visually")
        || h.classNames.contains (strL "sr-only") then h1FallbackM rest
    else
      let t := trimS h.text
      if titleOk t then some t else h1FallbackM rest

/-- Method 6: the URL slug match `/\/JobDetail\/([^/]+)\/\d+/`. -/
def jobSlugFind : Str → Option Str :=
  scanFind fun cs =>
    if hasPre (strL "/JobDetail/") cs then
      let r := cs.drop 11
      let seg := r.takeWhile (fun c => !(c == '/'))
      if seg.isEmpty then none
      else
        match r.drop seg.length with
        | '/' :: c :: _ => if c.isDigit then some seg else none
        | _ => none
    else none

/-- Method 6's slug-to-title conversion: every dash becomes a space. -/
def slugToTitle (seg : Str) : Str := seg.map (fun c => if c == '-' then ' ' else c)

/-- What the title queries of `getJobTitle` observe in the parsed document. -/
structure DocT where
  ogMeta : Option Str
  titleText : Str
  bbText : Str
  selH1 : List (Option Str)
  h1s : List H1El

/-- `getJobTitle` (extractors.ts 29-108): the six-method cascade. -/
def getJobTitle (d : DocT) (url : Str) : Option Str :=
  orNull (ogTitleM d.ogMeta)
    (orNull (pageTitleM d.titleText)
      (orNull (bloombergM d.bbText)
        (orNull (selectorsM d.selH1)
          (orNull (h1FallbackM d.h1s) ((jobSlugFind url).map slugToTitle)))))

/-! ## Construction-time document cleanup (extractors.ts line 9)

`createFieldExtractor` starts with `$('script, style, noscript').remove()` on
the shared parsed document.  The document is abstracted as its element list;
the in-place mutation is modelled as state passing: the value below is the
document every later query (by the extractor or by anything else holding the
same `$`) observes. -/

/-- An element of the shared parsed document. -/
structure Elem where
  tag : Str
  text : Str
deriving DecidableEq

/-- Tags removed at extractor construction. -/
def strippedTag (t : Str) : Bool :=
  t == strL "script" || t == strL "style" || t == strL "noscript"

/-- The shared document after `createFieldExtractor` runs its cleanup. -/
def fieldExtractorDoc (d : List Elem) : List Elem :=
  d.filter (fun e => !strippedTag e.tag)

/-! ## URL helpers (utils.ts) -/

/-- Split a URL at the first `://`, yielding scheme and remainder. -/
def schemeSplit (acc : Str) : Str → Option (Str × Str)
  | ':' :: '/' :: '/' :: rest => some (acc, rest)
  | c :: rest => schemeSplit (acc ++ [c]) rest
  | [] => none

/-- End of the host portion of a URL remainder. -/
def hostEnd (c : Char) : Bool := c == '/' || c == '?' || c == '#'

/-- `getBaseUrl` (utils.ts): protocol plus host.  A URL without a scheme
would make the JS `URL` constructor throw; it is returned unchanged here and
never reached by the claims. -/
def getBaseUrl (u : Str) : Str :=
  match schemeSplit [] u with
  | some (proto, rest) => proto ++ strL "://" ++ rest.takeWhile (fun c => !hostEnd c)
  | none => u

/-- `getSubdomain` (utils.ts): first dot-separated hostname part when there
are more than two, otherwise the whole hostname. -/
def getSubdomain (u : Str) : Str :=
  match schemeSplit [] u with
  | some (_, rest) =>
    let hostname := (rest.takeWhile (fun c => !hostEnd c)).takeWhile (fun c => !(c == ':'))
    let parts := hostname.splitOn '.'
    if 2 < parts.length then parts.headD [] else hostname
  | none => u

/-! ## Listing handler (listing.handler.ts) -/

/-- The route labels (types.ts). -/
inductive Label where
  | LISTING
  | JOB_DETAIL
deriving DecidableEq, Repr

/-- An element matched by `[class^=list-item-]` inside a subtitle wrapper. -/
structure SubEl where
  classNames : List Str
  text : Str

/-- A subtitle wrapper element of a job card. -/
structure SubWrapper where
  items : List SubEl
  text : Str

/-- A job-preview element of a listing page: its title link's href, its title
text, its subtitle wrappers. -/
structure Article where
  href : Option Str
  titleText : Str
  subs : List SubWrapper

/-- A pagination anchor candidate. -/
structure PagA where
  href : Option Str
  text : Str

/-- What the listing handler observes on a listing page. -/
structure ListingPage where
  articles : List Article
  pagAnchors : List PagA
  bodyText : Str

/-- JS object property assignment `m[k] = v` on a string-keyed record. -/
def recIns (m : List (Str × Str)) (k v : Str) : List (Str × Str) :=
  if m.any (fun p => p.1 == k) then m.map (fun p => if p.1 == k then (k, v) else p)
  else m ++ [(k, v)]

/-- The subtitle key: the first class name starting with `list-item-`,
with that leading segment dropped. -/
def subKey (classNames : List Str) : Option Str :=
  (classNames.find? (fun cn => hasPre (strL "list-item-") cn)).map (fun cn => cn.drop 10)

/-- Record one subtitle element (skipped when it yields no key). -/
def addSubEl (m : List (Str × Str)) (e : SubEl) : List (Str × Str) :=
  match subKey e.classNames with
  | none => m
  | some k => recIns m k (trimS e.text)

/-- Record one subtitle wrapper: keyed items, or the whole text as
`default` when the wrapper has no keyed items. -/
def addWrapper (m : List (Str × Str)) (w : SubWrapper) : List (Str × Str) :=
  if w.items.isEmpty then recIns m (strL "default") (trimS w.text)
  else w.items.foldl addSubEl m

/-- The `subtitles` record built from a job card. -/
def buildSubtitles (subs : List SubWrapper) : List (Str × Str) :=
  subs.foldl addWrapper []

/-- URL resolution of the listing handler:
`href.startsWith('http') ? href : baseUrl + (leading slash?) + href`. -/
def resolveUrl (base href : Str) : Str :=
  if hasPre (strL "http") href then href
  else base ++ (if hasPre (strL "/") href then ([] : Str) else strL "/") ++ href

/-- The `userData` payload attached to an enqueued detail task. -/
structure ListingUserData where
  title : Str
  subtitles : List (Str × Str)
deriving DecidableEq

/-- An enqueue request handed back to the crawler. -/
structure TaskReq where
  url : Str
  label : Label
  userData : Option ListingUserData
deriving DecidableEq

/-- The job-link collection loop with its `seenUrls` dedup set. -/
def listingGo (base : Str) : List Article → List Str → List TaskReq
  | [], _ => []
  | a :: arts, seen =>
    match a.href with
    | none => listingGo base arts seen
    | some h =>
      let full := resolveUrl base h
      if seen.contains full then listingGo base arts seen
      else
        { url := full, label := Label.JOB_DETAIL,
          userData := some { title := trimS a.titleText,
                             subtitles := buildSubtitles a.subs } }
          :: listingGo base arts (full :: seen)

/-- The job detail tasks a listing page enqueues. -/
def listingJobTasks (base : Str) (arts : List Article) : List TaskReq :=
  listingGo base arts []

/-- The pagination collection loop with its dedup set and skip rules. -/
def pagGo (base : Str) : List PagA → List Str → List Str
  | [], _ => []
  | l :: ls, seen =>
    match l.href with
    | none => pagGo base ls seen
    | some h =>
      let t := lowerS (trimS l.text)
      if containsS t (strL "prev") || containsS t (strL "<<")
          || containsS t (strL "back") then pagGo base ls seen
      else if h == strL "#" || h.isEmpty then pagGo base ls seen
      else
        let full := resolveUrl base h
        if seen.contains full then pagGo base ls seen
        else full :: pagGo base ls (full :: seen)

/-- The pagination URLs a listing page enqueues. -/
def listingPagUrls (base : Str) (ls : List PagA) : List Str := pagGo base ls []

/-! ## Detail handler (job-detail.handler.ts)

The DOM-reading extractor calls (`getJobTitle`, `getFieldByLabels`,
`getFieldFromText`, `getTextByPattern`) are abstracted by the values they
return for the label lists the handler passes them; the handler's own
composition logic — hint precedence, normalization, record assembly — is
embedded verbatim. -/

/-- The subtitle keys the detail handler reads from `userData.subtitles`. -/
structure Subtitles where
  location : Option Str
  locationBuiltIn : Option Str
  workingTime : Option Str
  contractType : Option Str
  department : Option Str
  legalEntity : Option Str
  ref : Option Str
deriving DecidableEq

/-- The `userData` a detail request may carry. -/
structure UserData where
  title : Option Str
  subtitles : Option Subtitles
deriving DecidableEq

/-- What the field-extraction queries return on this detail page. -/
structure ExtractorResults where
  jobTitleR : Option Str
  byLabels : List Str → Option Str
  fromText : List Str → Option Str
  patPosted : Option Str
  patRef : Option Str

/-- Label synonym tables passed by the detail handler, verbatim. -/
def locationLabels : List Str :=
  ["work location", "location", "job location", "city", "office location"].map strL

def workTypeLabels : List Str :=
  ["work type", "remote", "workplace type", "work arrangement", "location type"].map strL

def scheduleLabels : List Str :=
  ["work schedule", "schedule", "shift", "hours", "working hours"].map strL

def salaryLabels : List Str :=
  ["salary range", "salary", "compensation", "pay range", "base pay rate",
   "pay rate", "base pay", "hourly rate", "annual salary"].map strL

def employmentTypeLabels : List Str :=
  ["employment type", "job type", "position type", "full/part time",
   "full time/part time", "type"].map strL

def classificationLabels : List Str :=
  ["employment classification", "classification", "flsa status", "exempt status"].map strL

def durationLabels : List Str :=
  ["duration", "contract length", "term", "assignment length"].map strL

def departmentLabels : List Str :=
  ["department", "business area", "division", "team", "group", "organization"].map strL

def categoryLabels : List Str :=
  ["category", "job family", "job category", "function", "area"].map strL

def entityLabels : List Str :=
  ["entity", "company", "subsidiary", "business unit", "legal entity"].map strL

def postedLabels : List Str :=
  ["posted date", "posted", "date posted", "posting date", "published"].map strL

def refLabels : List Str :=
  ["job #", "job number", "requisition", "req id", "position id",
   "opening id", "ref", "ref #"].map strL

def refTextLabels : List Str := ["Ref #", "Ref#", "Reference"].map strL

def deptTextLabels : List Str := ["Business Area", "Department"].map strL

def locTextLabels : List Str := ["Location"].map strL

/-- The ref-hint normalization `toLowerCase().replaceAll(ref-blank-hash, '')`
applied to an already lowercased string: every occurrence of `ref`, one
whitespace character, `#` is deleted, scanning left to right. -/
def stripRefHash : Str → Str
  | 'r' :: 'e' :: 'f' :: c :: '#' :: rest =>
    if c.isWhitespace then stripRefHash rest
    else 'r' :: stripRefHash ('e' :: 'f' :: c :: '#' :: rest)
  | c :: rest => c :: stripRefHash rest
  | [] => []

/-- The job-id regex of the detail handler: first `/` followed by digits
ending at `/`, `?`, `#` or the end of the URL. -/
def jobIdFind : Str → Option Str
  | [] => none
  | '/' :: rest =>
    let ds := rest.takeWhile Char.isDigit
    let after := rest.drop ds.length
    if !ds.isEmpty && (after.isEmpty || after.head? == some '/'
        || after.head? == some '?' || after.head? == some '#')
    then some ds else jobIdFind rest
  | _ :: rest => jobIdFind rest

/-- The page-level inputs of the detail handler besides the URL. -/
structure DetailData where
  userData : Option UserData
  ex : ExtractorResults
  applyHref : Option Str
  descriptionS : Option Str
  qualificationsS : Str
  dutiesS : Str
  fullContentS : Str
  nowIso : Str

/-- The output record (`jobData` in job-detail.handler.ts). -/
structure JobRecord where
  url : Str
  jobId : Option Str
  refNumber : Option Str
  subdomain : Str
  title : Option Str
  location : Option Str
  workType : Option Str
  schedule : Option Str
  salaryMin : Option Str
  salaryMax : Option Str
  salaryPeriod : Option Str
  salaryRaw : Option Str
  employmentType : Option Str
  employmentClassification : Option Str
  duration : Option Str
  department : Option Str
  category : Option Str
  entity : Option Str
  postedDate : Option Str
  description : Option Str
  qualifications : Option Str
  duties : Option Str
  fullContent : Str
  applyUrl : Option Str
  additional : Option Subtitles
  scrapedAt : Str
deriving DecidableEq

/-- The record assembly of `jobDetailHandler` (job-detail.handler.ts 12-214). -/
def buildJob (url : Str) (c : DetailData) : JobRecord :=
  let jobId := jobIdFind url
  let subs := c.userData.bind (fun u => u.subtitles)
  let title := orFalsy (c.userData.bind (fun u => u.title)) c.ex.jobTitleR
  let location :=
    orFalsy (subs.bind (fun s => s.location))
      (orFalsy (subs.bind (fun s => s.locationBuiltIn))
        (orNull (c.ex.byLabels locationLabels) (c.ex.fromText locTextLabels)))
  let salaryRaw := c.ex.byLabels salaryLabels
  let salary := parseSalary salaryRaw
  let refNumber0 :=
    orFalsy ((subs.bind (fun s => s.ref)).map (fun r => stripRefHash (lowerS r)))
      (orNull (c.ex.byLabels refLabels)
        (orNull (c.ex.fromText refTextLabels) c.ex.patRef))
  { url := url
    jobId := jobId
    refNumber := if refNumber0 = jobId then none else refNumber0
    subdomain := getSubdomain url
    title := title
    location := location
    workType := c.ex.byLabels workTypeLabels
    schedule := c.ex.byLabels scheduleLabels
    salaryMin := salary.min
    salaryMax := salary.max
    salaryPeriod := salary.period
    salaryRaw := salary.raw
    employmentType := orFalsy (subs.bind (fun s => s.workingTime))
      (c.ex.byLabels employmentTypeLabels)
    employmentClassification := c.ex.byLabels classificationLabels
    duration := orFalsy (subs.bind (fun s => s.contractType))
      (c.ex.byLabels durationLabels)
    department := orFalsy (subs.bind (fun s => s.department))
      (orNull (c.ex.byLabels departmentLabels) (c.ex.fromText deptTextLabels))
    category := c.ex.byLabels categoryLabels
    entity := orFalsy (subs.bind (fun s => s.legalEntity))
      (c.ex.byLabels entityLabels)
    postedDate := parseDateO (orNull (c.ex.byLabels postedLabels) c.ex.patPosted)
    description := c.descriptionS
    qualifications := if c.qualificationsS.isEmpty then none else some c.qualificationsS
    duties := if c.dutiesS.isEmpty then none else some c.dutiesS
    fullContent := c.fullContentS
    applyUrl := c.applyHref.map (fun h =>
      if hasPre (strL "http") h then h else getBaseUrl url ++ h)
    additional := subs
    scrapedAt := c.nowIso }

/-! ## Handler effects and the main request handler (main.ts) -/

/-- One persisted error-evidence artifact (`saveErrorSample`). -/
structure Evidence where
  url : Str
  kind : ErrType
  status : Option ℕ
deriving DecidableEq

/-- The externally visible effects of processing one page. -/
structure Effects where
  evidence : List Evidence
  emitted : List JobRecord
  enqueued : List TaskReq

/-- `listingHandler` (listing.handler.ts): enqueue the deduplicated detail
tasks, then the deduplicated pagination listing tasks; nothing else. -/
def listingHandler (url : Str) (p : ListingPage) : Effects :=
  let base := getBaseUrl url
  { evidence := []
    emitted := []
    enqueued := listingJobTasks base p.articles
      ++ (listingPagUrls base p.pagAnchors).map
          (fun u => { url := u, label := Label.LISTING, userData := none }) }

/-- `jobDetailHandler` (job-detail.handler.ts): push exactly one record. -/
def jobDetailHandler (url : Str) (c : DetailData) : Effects :=
  { evidence := [], emitted := [buildJob url c], enqueued := [] }

/-- What the default handler observes: anchors of job-detail and listing
shape anywhere on the page. -/
structure DefaultPage where
  jobHrefs : List (Option Str)
  listingHrefs : List (Option Str)

/-- The default handler's collect-and-dedup loop; resolution is a plain
concatenation of base and href. -/
def defaultGo (base : Str) : List (Option Str) → List Str → List Str
  | [], _ => []
  | none :: hs, seen => defaultGo base hs seen
  | some h :: hs, seen =>
    let full := if hasPre (strL "http") h then h else base ++ h
    if seen.contains full then defaultGo base hs seen
    else full :: defaultGo base hs (full :: seen)

/-- `defaultHandler` (default.handler.ts). -/
def defaultHandler (url : Str) (p : DefaultPage) : Effects :=
  let base := getBaseUrl url
  { evidence := []
    emitted := []
    enqueued := (defaultGo base p.jobHrefs []).map
        (fun u => { url := u, label := Label.JOB_DETAIL, userData := none })
      ++ (defaultGo base p.listingHrefs []).map
        (fun u => { url := u, label := Label.LISTING, userData := none }) }

/-- Everything the main request handler observes about one fetched page. -/
structure PageCtx where
  url : Str
  status : ℕ
  pageTitle : Str
  bodyText : Str
  label : Option Label
  listing : ListingPage
  detailD : DetailData
  defaultP : DefaultPage

/-- The status-tier mapping of main.ts for `status >= 400`. -/
def statusErrType (status : ℕ) : ErrType :=
  if status = 401 then ErrType.UNAUTHORIZED
  else if status = 403 then ErrType.ACCESS_DENIED
  else if status = 404 then ErrType.PAGE_NOT_FOUND
  else if status = 429 then ErrType.RATE_LIMITED
  else if status = 499 then ErrType.PROXY_RATE_LIMITED
  else if 500 ≤ status then ErrType.SERVER_ERROR
  else ErrType.HTTP_ERROR

/-- The router dispatch (`router(context)`): label to handler. -/
def routeRequest (ctx : PageCtx) : Effects :=
  match ctx.label with
  | some Label.LISTING => listingHandler ctx.url ctx.listing
  | some Label.JOB_DETAIL => jobDetailHandler ctx.url ctx.detailD
  | none => defaultHandler ctx.url ctx.defaultP

/-- The main `requestHandler` of main.ts: status tier, then content tier —
each recording evidence (when sample saving is on) and stopping — then
normal routing. -/
def handleRequest (saveErrorSamples : Bool) (ctx : PageCtx) : Effects :=
  if 400 ≤ ctx.status then
    { evidence := if saveErrorSamples then
        [{ url := ctx.url, kind := statusErrType ctx.status, status := some ctx.status }]
      else []
      emitted := [], enqueued := [] }
  else
    match detectErrorInContent ctx.pageTitle ctx.bodyText with
    | some et =>
      { evidence := if saveErrorSamples then
          [{ url := ctx.url, kind := et, status := some ctx.status }]
        else []
        emitted := [], enqueued := [] }
    | none => routeRequest ctx

/-! ## Helper lemmas -/

theorem orNull_none_left (b : Option Str) : orNull none b = b := rfl

theorem orNull_some_left (s : Str) (b : Option Str) : orNull (some s) b = some s := rfl

theorem orFalsy_some_ne (v : Str) (b : Option Str) (h : v ≠ []) :
    orFalsy (some v) b = some v := by
  simp [orFalsy, h]

theorem orFalsy_none_left (b : Option Str) : orFalsy none b = b := rfl

/-! ## Concrete fixtures used by witnesses and counterexamples -/

/-- An extractor oracle that finds nothing. -/
def exNone : ExtractorResults :=
  { jobTitleR := none, byLabels := fun _ => none, fromText := fun _ => none,
    patPosted := none, patRef := none }

/-- A listing page with no job cards and no pagination. -/
def emptyListing : ListingPage := { articles := [], pagAnchors := [], bodyText := [] }

/-- A default page with no links. -/
def emptyDefault : DefaultPage := { jobHrefs := [], listingHrefs := [] }

/-- Detail-page data with no hints and an empty oracle. -/
def dDataEmpty : DetailData :=
  { userData := none, ex := exNone, applyHref := none, descriptionS := none,
    qualificationsS := [], dutiesS := [], fullContentS := [], nowIso := [] }

/-- A fetched page with HTTP status 404. -/
def ctx404 : PageCtx :=
  { url := strL "https://uclahealth.avature.net/careers/JobDetail/Nurse/123",
    status := 404, pageTitle := strL "Anything at all",
    bodyText := strL "This content is ignored by the status tier",
    label := some Label.JOB_DETAIL, listing := emptyListing,
    detailD := dDataEmpty, defaultP := emptyDefault }

/-- A status-200 page whose body is Avature's sign-in interstitial text,
labeled as a listing page carrying one job card. -/
def ctxSignIn : PageCtx :=
  { url := strL "https://internal.avature.net/careers/SearchJobs",
    status := 200, pageTitle := [],
    bodyText := strL "Please sign in to continue",
    label := some Label.LISTING,
    listing := { articles := [{ href := some (strL "/careers/JobDetail/Engineer/42"),
                                titleText := strL "Engineer", subs := [] }],
                 pagAnchors := [], bodyText := strL "Please sign in to continue" },
    detailD := dDataEmpty, defaultP := emptyDefault }

/-! ## C10 -/

/-- Claim C10 (confirmed): `createFieldExtractor` removes every script, style
and noscript element from the shared parsed document at construction time:
afterwards a query observes exactly the other elements — none of the
stripped ones — and, whenever such an element was present, the document
value really changed. -/
theorem fieldExtractor_strips_scripts (d : List Elem) :
    (∀ e, e ∈ fieldExtractorDoc d ↔ e ∈ d ∧ strippedTag e.tag = false)
    ∧ (∀ e ∈ fieldExtractorDoc d, strippedTag e.tag = false)
    ∧ ((∃ e ∈ d, strippedTag e.tag = true) → fieldExtractorDoc d ≠ d) := by
  refine ⟨?_, ?_, ?_⟩
  · intro e
    simp [fieldExtractorDoc, List.mem_filter]
  · intro e he
    simp [fieldExtractorDoc, List.mem_filter] at he
    exact he.2
  · rintro ⟨e, he, hbad⟩ heq
    have hm : e ∈ fieldExtractorDoc d := by rw [heq]; exact he
    simp [fieldExtractorDoc, List.mem_filter, hbad] at hm

/-- Witness for C10 at a concrete document holding a script element. -/
theorem fieldExtractor_strips_scripts_witness :
    (∃ e ∈ [({ tag := strL "script", text := strL "var x = 1" } : Elem),
            { tag := strL "h1", text := strL "Nurse" }], strippedTag e.tag = true)
    ∧ fieldExtractorDoc [({ tag := strL "script", text := strL "var x = 1" } : Elem),
        { tag := strL "h1", text := strL "Nurse" }]
      ≠ [{ tag := strL "script", text := strL "var x = 1" },
         { tag := strL "h1", text := strL "Nurse" }] := by
  refine ⟨by decide, ?_⟩
  exact (fieldExtractor_strips_scripts _).2.2 (by decide)

/-! ## C8 -/

/-- Claim C8 (confirmed): on every detail page the detail handler emits
exactly the one assembled record and nothing else — no evidence, no
enqueued task. -/
theorem detailHandler_single_emission (url : Str) (c : DetailData) :
    (jobDetailHandler url c).emitted = [buildJob url c]
    ∧ (jobDetailHandler url c).emitted.length = 1
    ∧ (jobDetailHandler url c).enqueued = []
    ∧ (jobDetailHandler url c).evidence = [] :=
  ⟨rfl, rfl, rfl, rfl⟩

/-! ## C6 -/

/-- Claim C6 (confirmed): with evidence saving on (the source default), a
status-404 response is classified by status alone: whatever the page
content and label, exactly one PAGE_NOT_FOUND evidence artifact is
recorded, no job record is emitted, and no task is enqueued. -/
theorem status404_terminal (save : Bool) (ctx : PageCtx)
    (hs : save = true) (h404 : ctx.status = 404) :
    (handleRequest save ctx).evidence
        = [{ url := ctx.url, kind := ErrType.PAGE_NOT_FOUND, status := some 404 }]
    ∧ (handleRequest save ctx).emitted = []
    ∧ (handleRequest save ctx).enqueued = [] := by
  subst hs
  have h4 : (400 ≤ ctx.status) = True := by simp [h404]
  simp [handleRequest, h4, h404, statusErrType]

/-- Witness for C6 at a concrete 404 page. -/
theorem status404_terminal_witness :
    (handleRequest true ctx404).evidence
        = [{ url := ctx404.url, kind := ErrType.PAGE_NOT_FOUND, status := some 404 }]
    ∧ (handleRequest true ctx404).emitted = []
    ∧ (handleRequest true ctx404).enqueued = [] :=
  status404_terminal true ctx404 rfl rfl

/-! ## C5 -/

/-- Claim C5 (code bug): a status-200 page whose body text is `Please sign in
to continue` matches none of the content-tier signatures — the auth-required
signatures only cover `login required`, `sign in required` and
`authentication required` — so no AuthRequired evidence is recorded and the
page IS routed to its page handler (here a listing handler that goes on to
enqueue a task). -/
theorem signInContinue_not_classified :
    detectErrorInContent [] (strL "Please sign in to continue") = none
    ∧ (handleRequest true ctxSignIn).evidence = []
    ∧ (handleRequest true ctxSignIn).enqueued ≠ [] := by
  refine ⟨by decide, by decide, by decide⟩

/-! ## C3 and C9: `parseDate` case lemmas -/

theorem parseDate_iso_eq (s : Str) (h : isIso s = true) : parseDate s = s := by
  simp [parseDate, h]

theorem parseDate_mdy_eq (s m d y : Str) (hiso : isIso s = false)
    (h : scanFind mdyAt s = some (m, d, y)) :
    parseDate s = renderYMD y (pad2 m) (pad2 d) := by
  simp [parseDate, hiso, h]

theorem parseDate_dmy_eq (s d mon y mm : Str) (hiso : isIso s = false)
    (hm : scanFind mdyAt s = none) (hd : scanFind dmyAt s = some (d, mon, y))
    (hl : months3.lookup (lowerS mon) = some mm) :
    parseDate s = renderYMD y mm (pad2 d) := by
  simp [parseDate, hiso, hm, hd, hl]

theorem parseDateFull_eq (s mon d y mm : Str)
    (hf : scanFind fullAt s = some (mon, d, y))
    (hl : monthsFull.lookup (lowerS mon) = some mm) :
    parseDateFull s = renderYMD y mm (pad2 d) := by
  simp [parseDateFull, hf, hl]

theorem parseDateFull_orig (s : Str)
    (hf : ∀ mon d y, scanFind fullAt s = some (mon, d, y) →
      monthsFull.lookup (lowerS mon) = none) :
    parseDateFull s = s := by
  unfold parseDateFull
  cases hfa : scanFind fullAt s with
  | none => rfl
  | some v =>
    obtain ⟨mon, d, y⟩ := v
    simp [hf mon d y hfa]

theorem parseDate_fallsToFull (s : Str) (hiso : isIso s = false)
    (hm : scanFind mdyAt s = none)
    (hd : ∀ d mon y, scanFind dmyAt s = some (d, mon, y) →
      months3.lookup (lowerS mon) = none) :
    parseDate s = parseDateFull s := by
  cases hda : scanFind dmyAt s with
  | none => simp [parseDate, hiso, hm, hda]
  | some v =>
    obtain ⟨d, mon, y⟩ := v
    simp [parseDate, hiso, hm, hda, hd d mon y hda]

/-- Claim C3 (confirmed): `parseDate` is total and characterized case by
case: an input beginning with an ISO date is returned unchanged; a numeric
M/D/Y match yields the Y-M-D rendering of its captures; a D-Mon-Y match with
a known abbreviation yields its Y-M-D rendering; a full month-name match
(reached when the abbreviation path produced nothing) yields its Y-M-D
rendering; and when nothing applies the original string is returned. -/
theorem parseDate_total_normalization :
    (∀ s, isIso s = true → parseDate s = s)
    ∧ (∀ s m d y, isIso s = false → scanFind mdyAt s = some (m, d, y) →
        parseDate s = renderYMD y (pad2 m) (pad2 d))
    ∧ (∀ s d mon y mm, isIso s = false → scanFind mdyAt s = none →
        scanFind dmyAt s = some (d, mon, y) → months3.lookup (lowerS mon) = some mm →
        parseDate s = renderYMD y mm (pad2 d))
    ∧ (∀ s mon d y mm, isIso s = false → scanFind mdyAt s = none →
        (∀ d2 mon2 y2, scanFind dmyAt s = some (d2, mon2, y2) →
          months3.lookup (lowerS mon2) = none) →
        scanFind fullAt s = some (mon, d, y) →
        monthsFull.lookup (lowerS mon) = some mm →
        parseDate s = renderYMD y mm (pad2 d))
    ∧ (∀ s, isIso s = false → scanFind mdyAt s = none →
        (∀ d mon y, scanFind dmyAt s = some (d, mon, y) →
          months3.lookup (lowerS mon) = none) →
        (∀ mon d y, scanFind fullAt s = some (mon, d, y) →
          monthsFull.lookup (lowerS mon) = none) →
        parseDate s = s) := by
  refine ⟨parseDate_iso_eq, parseDate_mdy_eq, parseDate_dmy_eq, ?_, ?_⟩
  · intro s mon d y mm hiso hm hd hf hl
    exact (parseDate_fallsToFull s hiso hm hd).trans (parseDateFull_eq s mon d y mm hf hl)
  · intro s hiso hm hd hf
    exact (parseDate_fallsToFull s hiso hm hd).trans (parseDateFull_orig s hf)

/-- Witness for C3: the spec's own example, `02-Feb-2026` to `2026-02-02`,
through the D-Mon-Y conjunct. -/
theorem parseDate_total_normalization_witness :
    parseDate (strL "02-Feb-2026") = strL "2026-02-02" := by
  have h := parseDate_total_normalization.2.2.1 (strL "02-Feb-2026")
    (strL "02") (strL "Feb") (strL "2026") (strL "02")
    (by decide) (by decide) (by decide) (by decide)
  exact h.trans (by decide)

/-- Claim C9 (confirmed): the M/D/Y branch performs no calendar validation —
the captures are rendered as Y-M-D whatever their value, so `13/45/2023`
yields `2023-13-45` with month 13 > 12 and day 45 > 31. -/
theorem parseDate_mdy_unvalidated :
    (∀ s m d y, isIso s = false → scanFind mdyAt s = some (m, d, y) →
        parseDate s = renderYMD y (pad2 m) (pad2 d))
    ∧ parseDate (strL "13/45/2023") = strL "2023-13-45"
    ∧ 12 < natOfDigits (strL "13")
    ∧ 31 < natOfDigits (strL "45") :=
  ⟨parseDate_mdy_eq, by decide, by decide, by decide⟩

/-- Witness for C9 at the out-of-range input. -/
theorem parseDate_mdy_unvalidated_witness :
    parseDate (strL "13/45/2023")
      = renderYMD (strL "2023") (pad2 (strL "13")) (pad2 (strL "45")) :=
  parseDate_mdy_unvalidated.1 (strL "13/45/2023") (strL "13") (strL "45") (strL "2023")
    (by decide) (by decide)

/-! ## C2 -/

/-- Counterexample to C2 as stated: in `$100 - $50` the range pattern
matches, yet the returned min (100) exceeds the returned max (50) read as
decimals — the code assigns min and max positionally and never reorders. -/
theorem parseSalary_range_order_counterexample :
    salRangeFind (strL "$100 - $50") = some (strL "100", strL "50")
    ∧ (parseSalary (some (strL "$100 - $50"))).min = some (strL "100")
    ∧ (parseSalary (some (strL "$100 - $50"))).max = some (strL "50")
    ∧ ¬ decLe (strL "100") (strL "50") := by
  refine ⟨by decide, by decide, by decide, by decide⟩

/-- Claim C2 (corrected): when the range pattern matches, min and max are
the first and second captured numbers with commas stripped — so min ≤ max
exactly when the range lists the smaller figure first; when the range
pattern does not match (in particular when only the single-value pattern
does), min and max are equal. -/
theorem parseSalary_minmax (s : Str) :
    (∀ a b, salRangeFind s = some (a, b) →
      (parseSalary (some s)).min = some (stripCommas a)
      ∧ (parseSalary (some s)).max = some (stripCommas b))
    ∧ (∀ a b, salRangeFind s = some (a, b) → decLe (stripCommas a) (stripCommas b) →
        ∃ m M, (parseSalary (some s)).min = some m
          ∧ (parseSalary (some s)).max = some M ∧ decLe m M)
    ∧ (salRangeFind s = none →
        (parseSalary (some s)).min = (parseSalary (some s)).max) := by
  refine ⟨?_, ?_, ?_⟩
  · intro a b h
    constructor <;> simp [parseSalary, h]
  · intro a b h hle
    exact ⟨stripCommas a, stripCommas b, by simp [parseSalary, h], by simp [parseSalary, h], hle⟩
  · intro h
    cases hs : salSingleFind s <;> simp [parseSalary, h, hs]

/-- Witness for C2 at the spec's hourly range fixture. -/
theorem parseSalary_minmax_witness :
    (parseSalary (some (strL "$45.50 - $60.00 per hour"))).min = some (strL "45.50")
    ∧ (parseSalary (some (strL "$45.50 - $60.00 per hour"))).max = some (strL "60.00")
    ∧ decLe (strL "45.50") (strL "60.00")
    ∧ (parseSalary (some (strL "$45.50 - $60.00 per hour"))).period = some (strL "hourly") := by
  have h := (parseSalary_minmax (strL "$45.50 - $60.00 per hour")).1
    (strL "45.50") (strL "60.00") (by decide)
  refine ⟨h.1.trans (by decide), h.2.trans (by decide), by decide, by decide⟩

/-! ## C7: deduplication of listing-page job links -/

/-- First-occurrence deduplication against an already-seen set: the
reference shape of the listing handler's collection loop. -/
def dedupFirst : List Str → List Str → List Str
  | _, [] => []
  | seen, u :: us =>
    if seen.contains u then dedupFirst seen us
    else u :: dedupFirst (u :: seen) us

/-- The resolved absolute URLs of the job cards that carry a link, in page
order, duplicates included. -/
def articleUrls (base : Str) (arts : List Article) : List Str :=
  arts.filterMap (fun a => a.href.map (resolveUrl base))

theorem dedupFirst_mem (us : List Str) : ∀ (seen : List Str) (u : Str),
    u ∈ dedupFirst seen us ↔ u ∈ us ∧ u ∉ seen := by
  induction us with
  | nil => intro seen u; simp [dedupFirst]
  | cons v us ih =>
    intro seen u
    by_cases hc : v ∈ seen
    · rw [dedupFirst, if_pos (by simpa using hc), ih seen u]
      constructor
      · exact fun h => ⟨List.mem_cons_of_mem v h.1, h.2⟩
      · rintro ⟨h1, hns⟩
        rcases List.mem_cons.mp h1 with rfl | h2
        · exact absurd hc hns
        · exact ⟨h2, hns⟩
    · rw [dedupFirst, if_neg (by simpa using hc)]
      constructor
      · intro hmem
        rcases List.mem_cons.mp hmem with rfl | hdd
        · exact ⟨List.mem_cons_self _ _, hc⟩
        · obtain ⟨hu, hns⟩ := (ih (v :: seen) u).mp hdd
          exact ⟨List.mem_cons_of_mem v hu, fun hs => hns (List.mem_cons_of_mem v hs)⟩
      · rintro ⟨hu, hns⟩
        rcases List.mem_cons.mp hu with rfl | hu2
        · exact List.mem_cons_self _ _
        · by_cases huv : u = v
          · subst huv; exact List.mem_cons_self _ _
          · refine List.mem_cons_of_mem v ((ih (v :: seen) u).mpr ⟨hu2, ?_⟩)
            intro hvs
            rcases List.mem_cons.mp hvs with h1 | h2
            · exact huv h1
            · exact hns h2

theorem dedupFirst_nodup (us : List Str) : ∀ seen : List Str,
    (dedupFirst seen us).Nodup := by
  induction us with
  | nil => intro seen; simp [dedupFirst]
  | cons v us ih =>
    intro seen
    by_cases hc : v ∈ seen
    · rw [dedupFirst, if_pos (by simpa using hc)]
      exact ih seen
    · rw [dedupFirst, if_neg (by simpa using hc), List.nodup_cons]
      refine ⟨fun hmem => ?_, ih (v :: seen)⟩
      exact ((dedupFirst_mem us (v :: seen) v).mp hmem).2 (List.mem_cons_self v seen)

theorem listingGo_map_url (base : Str) (arts : List Article) : ∀ seen : List Str,
    (listingGo base arts seen).map TaskReq.url = dedupFirst seen (articleUrls base arts) := by
  induction arts with
  | nil => intro seen; rfl
  | cons a arts ih =>
    intro seen
    cases hh : a.href with
    | none =>
      have harts : articleUrls base (a :: arts) = articleUrls base arts := by
        simp [articleUrls, List.filterMap_cons, hh]
      rw [harts, listingGo, hh]
      exact ih seen
    | some h =>
      have harts : articleUrls base (a :: arts)
          = resolveUrl base h :: articleUrls base arts := by
        simp [articleUrls, List.filterMap_cons, hh]
      rw [harts, listingGo, hh]
      dsimp only
      by_cases hc : resolveUrl base h ∈ seen
      · rw [if_pos (by simpa using hc), dedupFirst, if_pos (by simpa using hc)]
        exact ih seen
      · rw [if_neg (by simpa using hc), dedupFirst, if_neg (by simpa using hc),
          List.map_cons]
        exact congrArg _ (ih (resolveUrl base h :: seen))

theorem listingGo_labels (base : Str) (arts : List Article) : ∀ (seen : List Str)
    (t : TaskReq), t ∈ listingGo base arts seen → t.label = Label.JOB_DETAIL := by
  induction arts with
  | nil => intro seen t ht; simp [listingGo] at ht
  | cons a arts ih =>
    intro seen t ht
    cases hh : a.href with
    | none =>
      rw [listingGo, hh] at ht
      exact ih seen t ht
    | some h =>
      rw [listingGo, hh] at ht
      dsimp only at ht
      by_cases hc : resolveUrl base h ∈ seen
      · rw [if_pos (by simpa using hc)] at ht
        exact ih seen t ht
      · rw [if_neg (by simpa using hc)] at ht
        rcases List.mem_cons.mp ht with rfl | hmem
        · rfl
        · exact ih _ t hmem

/-- Claim C7 (confirmed): the listing handler enqueues exactly one
JOB_DETAIL task per distinct resolved absolute job-detail URL — the task
URLs are the first-occurrence deduplication of the cards' resolved URLs,
duplicate-free, covering exactly the discovered URLs — and a page with zero
discoverable job links enqueues zero detail tasks without being treated as
an error. -/
theorem listing_enqueues_dedup (url : Str) (p : ListingPage) :
    ((listingJobTasks (getBaseUrl url) p.articles).map TaskReq.url
        = dedupFirst [] (articleUrls (getBaseUrl url) p.articles))
    ∧ ((listingJobTasks (getBaseUrl url) p.articles).map TaskReq.url).Nodup
    ∧ (∀ u, u ∈ (listingJobTasks (getBaseUrl url) p.articles).map TaskReq.url
        ↔ u ∈ articleUrls (getBaseUrl url) p.articles)
    ∧ (∀ t ∈ listingJobTasks (getBaseUrl url) p.articles, t.label = Label.JOB_DETAIL)
    ∧ (articleUrls (getBaseUrl url) p.articles = []
        → listingJobTasks (getBaseUrl url) p.articles = [])
    ∧ (listingHandler url p).evidence = []
    ∧ (listingHandler url p).emitted = []
    ∧ (listingHandler url p).enqueued
        = listingJobTasks (getBaseUrl url) p.articles
          ++ (listingPagUrls (getBaseUrl url) p.pagAnchors).map
              (fun u => { url := u, label := Label.LISTING, userData := none }) := by
  have hmap : (listingJobTasks (getBaseUrl url) p.articles).map TaskReq.url
      = dedupFirst [] (articleUrls (getBaseUrl url) p.articles) :=
    listingGo_map_url (getBaseUrl url) p.articles []
  refine ⟨hmap, ?_, ?_, ?_, ?_, rfl, rfl, rfl⟩
  · rw [hmap]
    exact dedupFirst_nodup _ []
  · intro u
    rw [hmap, dedupFirst_mem]
    simp
  · exact fun t ht => listingGo_labels (getBaseUrl url) p.articles [] t ht
  · intro hempty
    have h2 := hmap
    rw [hempty] at h2
    simp only [dedupFirst] at h2
    exact List.map_eq_nil_iff.mp h2

/-- Witness for C7: three unique job cards plus one duplicate URL enqueue
exactly three detail tasks; an empty listing page enqueues none. -/
theorem listing_enqueues_dedup_witness :
    ((listingJobTasks
        (getBaseUrl (strL "https://acme.avature.net/careers/SearchJobs"))
        [{ href := some (strL "/careers/JobDetail/Engineer/1"), titleText := strL "Engineer", subs := [] },
         { href := some (strL "/careers/JobDetail/Nurse/2"), titleText := strL "Nurse", subs := [] },
         { href := some (strL "/careers/JobDetail/Analyst/3"), titleText := strL "Analyst", subs := [] },
         { href := some (strL "/careers/JobDetail/Engineer/1"), titleText := strL "Engineer", subs := [] }]).map
      TaskReq.url).length = 3
    ∧ listingJobTasks (getBaseUrl (strL "https://acme.avature.net/careers/SearchJobs")) [] = [] := by
  constructor
  · rw [(listing_enqueues_dedup (strL "https://acme.avature.net/careers/SearchJobs")
      { articles := [{ href := some (strL "/careers/JobDetail/Engineer/1"), titleText := strL "Engineer", subs := [] },
                     { href := some (strL "/careers/JobDetail/Nurse/2"), titleText := strL "Nurse", subs := [] },
                     { href := some (strL "/careers/JobDetail/Analyst/3"), titleText := strL "Analyst", subs := [] },
                     { href := some (strL "/careers/JobDetail/Engineer/1"), titleText := strL "Engineer", subs := [] }],
        pagAnchors := [], bodyText := [] }).1]
    decide
  · exact (listing_enqueues_dedup (strL "https://acme.avature.net/careers/SearchJobs")
      { articles := [], pagAnchors := [], bodyText := [] }).2.2.2.2.1 rfl

/-! ## C4: the company-name denylist in the title cascade -/

theorem titleOk_not_company (t : Str) (h : titleOk t = true) :
    isCompanyName t = false := by
  simp only [titleOk, Bool.and_eq_true, Bool.not_eq_true'] at h
  exact h.2

theorem selectorsM_ok (l : List (Option Str)) (t : Str) (h : selectorsM l = some t) :
    titleOk t = true := by
  induction l with
  | nil => simp [selectorsM] at h
  | cons o l ih =>
    cases o with
    | none =>
      rw [selectorsM] at h
      exact ih h
    | some raw =>
      rw [selectorsM] at h
      by_cases hok : titleOk (trimS raw) = true
      · rw [if_pos hok] at h
        exact (Option.some.inj h) ▸ hok
      · rw [if_neg hok] at h
        exact ih h

theorem h1FallbackM_ok (l : List H1El) (t : Str) (h : h1FallbackM l = some t) :
    titleOk t = true := by
  induction l with
  | nil => simp [h1FallbackM] at h
  | cons e l ih =>
    rw [h1FallbackM] at h
    by_cases hh : (e.classNames.contains (strL "visibility--hidden--visually")
        || e.classNames.contains (strL "sr-only")) = true
    · rw [if_pos hh] at h
      exact ih h
    · rw [if_neg hh] at h
      by_cases hok : titleOk (trimS e.text) = true
      · rw [if_pos hok] at h
        exact (Option.some.inj h) ▸ hok
      · rw [if_neg hok] at h
        exact ih h

/-- Counterexample to C4 as stated: with og:title equal to the denylisted
company name `UCLA Health`, the cascade's first strategy returns it —
method 1 never consults `isCompanyName`. -/
theorem title_og_company_counterexample :
    getJobTitle
        { ogMeta := some (strL "UCLA Health"), titleText := [], bbText := [],
          selH1 := [], h1s := [] }
        (strL "https://uclahealth.avature.net/careers/JobDetail/Nurse/1")
      = some (strL "UCLA Health")
    ∧ isCompanyName (strL "UCLA Health") = true := by
  refine ⟨by decide, by decide⟩

/-- Claim C4 (corrected): the denylist is consulted only by the heading
strategies (methods 4 and 5).  When the meta/title/Bloomberg strategies all
fail, a title produced by those heading strategies is never a denylisted
company name — a matching candidate is skipped and the cascade proceeds —
but the og:title, page-title, Bloomberg and URL-slug strategies apply no
such check. -/
theorem title_denylist_heading_strategies (d : DocT) (url : Str)
    (h1 : ogTitleM d.ogMeta = none) (h2 : pageTitleM d.titleText = none)
    (h3 : bloombergM d.bbText = none) :
    (∀ t, selectorsM d.selH1 = some t →
      getJobTitle d url = some t ∧ isCompanyName t = false)
    ∧ (∀ t, selectorsM d.selH1 = none → h1FallbackM d.h1s = some t →
      getJobTitle d url = some t ∧ isCompanyName t = false) := by
  constructor
  · intro t hsel
    refine ⟨?_, titleOk_not_company t (selectorsM_ok d.selH1 t hsel)⟩
    simp [getJobTitle, h1, h2, h3, hsel, orNull]
  · intro t hsel hfall
    refine ⟨?_, titleOk_not_company t (h1FallbackM_ok d.h1s t hfall)⟩
    simp [getJobTitle, h1, h2, h3, hsel, hfall, orNull]

/-- Witness for C4's corrected statement: the first selector candidate is
the denylisted `Bloomberg`, which is skipped; the next selector's
`Senior Software Engineer` is returned. -/
theorem title_denylist_heading_strategies_witness :
    getJobTitle
        { ogMeta := none, titleText := [], bbText := [],
          selH1 := [some (strL "Bloomberg"), some (strL "Senior Software Engineer")],
          h1s := [] }
        (strL "https://careers.bloomberg.avature.net/careers/JobDetail/X/9")
      = some (strL "Senior Software Engineer")
    ∧ isCompanyName (strL "Senior Software Engineer") = false := by
  exact (title_denylist_heading_strategies
    { ogMeta := none, titleText := [], bbText := [],
      selH1 := [some (strL "Bloomberg"), some (strL "Senior Software Engineer")],
      h1s := [] }
    (strL "https://careers.bloomberg.avature.net/careers/JobDetail/X/9")
    (by decide) (by decide) (by decide)).1
    (strL "Senior Software Engineer") (by decide)

/-! ## C1: field hints in the detail handler -/

/-- The subtitles record the detail handler reads, as an optional chain. -/
def subsOf (c : DetailData) : Option Subtitles :=
  c.userData.bind (fun u => u.subtitles)

theorem buildJob_title (url : Str) (c : DetailData) :
    (buildJob url c).title
      = orFalsy (c.userData.bind (fun u => u.title)) c.ex.jobTitleR := rfl

theorem buildJob_location (url : Str) (c : DetailData) :
    (buildJob url c).location
      = orFalsy ((subsOf c).bind (fun s => s.location))
          (orFalsy ((subsOf c).bind (fun s => s.locationBuiltIn))
            (orNull (c.ex.byLabels locationLabels) (c.ex.fromText locTextLabels))) := rfl

theorem buildJob_employmentType (url : Str) (c : DetailData) :
    (buildJob url c).employmentType
      = orFalsy ((subsOf c).bind (fun s => s.workingTime))
          (c.ex.byLabels employmentTypeLabels) := rfl

theorem buildJob_duration (url : Str) (c : DetailData) :
    (buildJob url c).duration
      = orFalsy ((subsOf c).bind (fun s => s.contractType))
          (c.ex.byLabels durationLabels) := rfl

theorem buildJob_department (url : Str) (c : DetailData) :
    (buildJob url c).department
      = orFalsy ((subsOf c).bind (fun s => s.department))
          (orNull (c.ex.byLabels departmentLabels) (c.ex.fromText deptTextLabels)) := rfl

theorem buildJob_entity (url : Str) (c : DetailData) :
    (buildJob url c).entity
      = orFalsy ((subsOf c).bind (fun s => s.legalEntity))
          (c.ex.byLabels entityLabels) := rfl

/-- The heuristic cascade for the reference number. -/
def refHeuristic (c : DetailData) : Option Str :=
  orNull (c.ex.byLabels refLabels) (orNull (c.ex.fromText refTextLabels) c.ex.patRef)

theorem buildJob_refNumber (url : Str) (c : DetailData) :
    (buildJob url c).refNumber
      = (if orFalsy (((subsOf c).bind (fun s => s.ref)).map
            (fun r => stripRefHash (lowerS r))) (refHeuristic c) = jobIdFind url
         then none
         else orFalsy (((subsOf c).bind (fun s => s.ref)).map
            (fun r => stripRefHash (lowerS r))) (refHeuristic c)) := rfl

/-- Claim C1 (corrected): a non-empty hint is copied verbatim into the
emitted record — bypassing the heuristics — for title, location (either
location key), employment type, duration, department and entity; the
refNumber hint, however, is first lowercased with every `ref`-blank-`#`
occurrence removed, wins only when that normalized value is non-empty, and
the emitted value is the normalized string nulled when it equals the jobId;
a ref hint normalizing to empty falls through to the heuristic cascade. -/
theorem fieldHints_override (url : Str) (c : DetailData) :
    (∀ v, c.userData.bind (fun u => u.title) = some v → v ≠ [] →
      (buildJob url c).title = some v)
    ∧ (∀ v, (subsOf c).bind (fun s => s.location) = some v → v ≠ [] →
      (buildJob url c).location = some v)
    ∧ (∀ v, (subsOf c).bind (fun s => s.location) = none →
      (subsOf c).bind (fun s => s.locationBuiltIn) = some v → v ≠ [] →
      (buildJob url c).location = some v)
    ∧ (∀ v, (subsOf c).bind (fun s => s.workingTime) = some v → v ≠ [] →
      (buildJob url c).employmentType = some v)
    ∧ (∀ v, (subsOf c).bind (fun s => s.contractType) = some v → v ≠ [] →
      (buildJob url c).duration = some v)
    ∧ (∀ v, (subsOf c).bind (fun s => s.department) = some v → v ≠ [] →
      (buildJob url c).department = some v)
    ∧ (∀ v, (subsOf c).bind (fun s => s.legalEntity) = some v → v ≠ [] →
      (buildJob url c).entity = some v)
    ∧ (∀ v, (subsOf c).bind (fun s => s.ref) = some v →
      stripRefHash (lowerS v) ≠ [] →
      (buildJob url c).refNumber
        = (if (some (stripRefHash (lowerS v)) : Option Str) = jobIdFind url
           then none else some (stripRefHash (lowerS v))))
    ∧ (∀ v, (subsOf c).bind (fun s => s.ref) = some v →
      stripRefHash (lowerS v) = [] →
      (buildJob url c).refNumber
        = (if refHeuristic c = jobIdFind url then none else refHeuristic c)) := by
  refine ⟨?_, ?_, ?_, ?_, ?_, ?_, ?_, ?_, ?_⟩
  · intro v hv hne
    rw [buildJob_title, hv, orFalsy_some_ne v _ hne]
  · intro v hv hne
    rw [buildJob_location, hv, orFalsy_some_ne v _ hne]
  · intro v hv0 hv hne
    rw [buildJob_location, hv0, hv, orFalsy_none_left, orFalsy_some_ne v _ hne]
  · intro v hv hne
    rw [buildJob_employmentType, hv, orFalsy_some_ne v _ hne]
  · intro v hv hne
    rw [buildJob_duration, hv, orFalsy_some_ne v _ hne]
  · intro v hv hne
    rw [buildJob_department, hv, orFalsy_some_ne v _ hne]
  · intro v hv hne
    rw [buildJob_entity, hv, orFalsy_some_ne v _ hne]
  · intro v hv hne
    rw [buildJob_refNumber, hv]
    simp only [Option.map_some']
    rw [orFalsy_some_ne _ _ hne]
  · intro v hv hnil
    rw [buildJob_refNumber, hv]
    simp only [Option.map_some', hnil]
    rfl

/-- An oracle whose label cascade finds a reference number. -/
def exRefOracle : ExtractorResults :=
  { jobTitleR := none,
    byLabels := fun ls => if ls == refLabels then some (strL "55XQ") else none,
    fromText := fun _ => none, patPosted := none, patRef := none }

/-- A subtitles record whose only hint is the ref value `Ref #`. -/
def subsRefHint : Subtitles :=
  { location := none, locationBuiltIn := none, workingTime := none,
    contractType := none, department := none, legalEntity := none,
    ref := some (strL "Ref #") }

/-- Detail data whose ref hint is the non-empty string `Ref #`. -/
def cRefHint : DetailData :=
  { userData := some { title := none, subtitles := some subsRefHint },
    ex := exRefOracle, applyHref := none, descriptionS := none,
    qualificationsS := [], dutiesS := [], fullContentS := [], nowIso := [] }

/-- Counterexample to C1 as stated: the non-empty ref hint `Ref #`
normalizes to the empty string, so the heuristic cascade IS used and the
emitted refNumber is the heuristic value, not the hint. -/
theorem fieldHint_ref_counterexample :
    (subsOf cRefHint).bind (fun s => s.ref) = some (strL "Ref #")
    ∧ strL "Ref #" ≠ []
    ∧ (buildJob (strL "https://acme.avature.net/careers/JobDetail/Dev/777")
        cRefHint).refNumber = some (strL "55XQ")
    ∧ (buildJob (strL "https://acme.avature.net/careers/JobDetail/Dev/777")
        cRefHint).refNumber ≠ some (strL "Ref #") := by
  refine ⟨rfl, by decide, by decide, by decide⟩

/-- A subtitles record carrying non-empty hints for every key the detail
handler reads. -/
def subsHints : Subtitles :=
  { location := some (strL "Los Angeles, CA"), locationBuiltIn := none,
    workingTime := some (strL "Full time"),
    contractType := some (strL "Permanent"),
    department := some (strL "Oncology"),
    legalEntity := some (strL "UCLA Health"),
    ref := some (strL "Ref #9542") }

/-- Detail data carrying a full bundle of non-empty hints. -/
def cHints : DetailData :=
  { userData := some { title := some (strL "Registered Nurse"), subtitles := some subsHints },
    ex := exNone, applyHref := none, descriptionS := none,
    qualificationsS := [], dutiesS := [], fullContentS := [], nowIso := [] }

/-- Witness for C1's corrected statement at a concrete hint bundle. -/
theorem fieldHints_override_witness :
    (buildJob (strL "https://uclahealth.avature.net/careers/JobDetail/RN/777")
        cHints).title = some (strL "Registered Nurse")
    ∧ (buildJob (strL "https://uclahealth.avature.net/careers/JobDetail/RN/777")
        cHints).location = some (strL "Los Angeles, CA")
    ∧ (buildJob (strL "https://uclahealth.avature.net/careers/JobDetail/RN/777")
        cHints).employmentType = some (strL "Full time")
    ∧ (buildJob (strL "https://uclahealth.avature.net/careers/JobDetail/RN/777")
        cHints).duration = some (strL "Permanent")
    ∧ (buildJob (strL "https://uclahealth.avature.net/careers/JobDetail/RN/777")
        cHints).department = some (strL "Oncology")
    ∧ (buildJob (strL "https://uclahealth.avature.net/careers/JobDetail/RN/777")
        cHints).entity = some (strL "UCLA Health")
    ∧ (buildJob (strL "https://uclahealth.avature.net/careers/JobDetail/RN/777")
        cHints).refNumber = some (strL "9542") := by
  have h := fieldHints_override
    (strL "https://uclahealth.avature.net/careers/JobDetail/RN/777") cHints
  refine ⟨h.1 _ rfl (by decide), h.2.1 _ rfl (by decide),
    h.2.2.2.1 _ rfl (by decide), h.2.2.2.2.1 _ rfl (by decide),
    h.2.2.2.2.2.1 _ rfl (by decide), h.2.2.2.2.2.2.1 _ rfl (by decide),
    (h.2.2.2.2.2.2.2.1 _ rfl (by decide)).trans (by decide)⟩

end Avature
